import Mathlib

/-!
Verification of the buford push-package core: the checksum stream
(`copyAndChecksum` in pushpackage/checksum.go), the payload `APS.Map`
serialization (payload package), and the manifest/signing/archive pipeline
described by the specification.

Machine integers are modelled as `Nat` with explicit reduction modulo `2 ^ 64`
where 64-bit overflow matters.  Byte streams are `List Nat` with each byte
below 256.
-/

namespace Buford

/-! ## SHA-512 (reference digest function, `crypto/sha512`)

A complete executable SHA-512 over byte lists, used as the reference digest
function.  Words are `Nat` values reduced modulo `2 ^ 64`. -/

def M64 : Nat := 2 ^ 64

/-- Right rotation of a 64-bit word. -/
def rotr (n x : Nat) : Nat := (x >>> n) ||| ((x <<< (64 - n)) % M64)

/-- SHA-512 choice function. -/
def shaCh (e f g : Nat) : Nat := (e &&& f) ^^^ ((e ^^^ (M64 - 1)) &&& g)

/-- SHA-512 majority function. -/
def shaMaj (a b c : Nat) : Nat := (a &&& b) ^^^ (a &&& c) ^^^ (b &&& c)

def bigSigma0 (x : Nat) : Nat := rotr 28 x ^^^ rotr 34 x ^^^ rotr 39 x

def bigSigma1 (x : Nat) : Nat := rotr 14 x ^^^ rotr 18 x ^^^ rotr 41 x

def smallSigma0 (x : Nat) : Nat := rotr 1 x ^^^ rotr 8 x ^^^ (x >>> 7)

def smallSigma1 (x : Nat) : Nat := rotr 19 x ^^^ rotr 61 x ^^^ (x >>> 6)

/-- A 64-bit word from its 32-bit halves. -/
def w64 (hi lo : Nat) : Nat := hi * 4294967296 + lo

/-- The 80 SHA-512 round constants, each given by its 32-bit halves. -/
def shaK : List Nat :=
  [w64 0x428a2f98 0xd728ae22, w64 0x71374491 0x23ef65cd,
   w64 0xb5c0fbcf 0xec4d3b2f, w64 0xe9b5dba5 0x8189dbbc,
   w64 0x3956c25b 0xf348b538, w64 0x59f111f1 0xb605d019,
   w64 0x923f82a4 0xaf194f9b, w64 0xab1c5ed5 0xda6d8118,
   w64 0xd807aa98 0xa3030242, w64 0x12835b01 0x45706fbe,
   w64 0x243185be 0x4ee4b28c, w64 0x550c7dc3 0xd5ffb4e2,
   w64 0x72be5d74 0xf27b896f, w64 0x80deb1fe 0x3b1696b1,
   w64 0x9bdc06a7 0x25c71235, w64 0xc19bf174 0xcf692694,
   w64 0xe49b69c1 0x9ef14ad2, w64 0xefbe4786 0x384f25e3,
   w64 0x0fc19dc6 0x8b8cd5b5, w64 0x240ca1cc 0x77ac9c65,
   w64 0x2de92c6f 0x592b0275, w64 0x4a7484aa 0x6ea6e483,
   w64 0x5cb0a9dc 0xbd41fbd4, w64 0x76f988da 0x831153b5,
   w64 0x983e5152 0xee66dfab, w64 0xa831c66d 0x2db43210,
   w64 0xb00327c8 0x98fb213f, w64 0xbf597fc7 0xbeef0ee4,
   w64 0xc6e00bf3 0x3da88fc2, w64 0xd5a79147 0x930aa725,
   w64 0x06ca6351 0xe003826f, w64 0x14292967 0x0a0e6e70,
   w64 0x27b70a85 0x46d22ffc, w64 0x2e1b2138 0x5c26c926,
   w64 0x4d2c6dfc 0x5ac42aed, w64 0x53380d13 0x9d95b3df,
   w64 0x650a7354 0x8baf63de, w64 0x766a0abb 0x3c77b2a8,
   w64 0x81c2c92e 0x47edaee6, w64 0x92722c85 0x1482353b,
   w64 0xa2bfe8a1 0x4cf10364, w64 0xa81a664b 0xbc423001,
   w64 0xc24b8b70 0xd0f89791, w64 0xc76c51a3 0x0654be30,
   w64 0xd192e819 0xd6ef5218, w64 0xd6990624 0x5565a910,
   w64 0xf40e3585 0x5771202a, w64 0x106aa070 0x32bbd1b8,
   w64 0x19a4c116 0xb8d2d0c8, w64 0x1e376c08 0x5141ab53,
   w64 0x2748774c 0xdf8eeb99, w64 0x34b0bcb5 0xe19b48a8,
   w64 0x391c0cb3 0xc5c95a63, w64 0x4ed8aa4a 0xe3418acb,
   w64 0x5b9cca4f 0x7763e373, w64 0x682e6ff3 0xd6b2b8a3,
   w64 0x748f82ee 0x5defb2fc, w64 0x78a5636f 0x43172f60,
   w64 0x84c87814 0xa1f0ab72, w64 0x8cc70208 0x1a6439ec,
   w64 0x90befffa 0x23631e28, w64 0xa4506ceb 0xde82bde9,
   w64 0xbef9a3f7 0xb2c67915, w64 0xc67178f2 0xe372532b,
   w64 0xca273ece 0xea26619c, w64 0xd186b8c7 0x21c0c207,
   w64 0xeada7dd6 0xcde0eb1e, w64 0xf57d4f7f 0xee6ed178,
   w64 0x06f067aa 0x72176fba, w64 0x0a637dc5 0xa2c898a6,
   w64 0x113f9804 0xbef90dae, w64 0x1b710b35 0x131c471b,
   w64 0x28db77f5 0x23047d84, w64 0x32caab7b 0x40c72493,
   w64 0x3c9ebe0a 0x15c9bebc, w64 0x431d67c4 0x9c100d4c,
   w64 0x4cc5d4be 0xcb3e42b6, w64 0x597f299c 0xfc657e2a,
   w64 0x5fcb6fab 0x3ad6faec, w64 0x6c44198c 0x4a475817]

/-- The eight 64-bit working variables of the SHA-512 compression function. -/
structure Sha512State where
  a : Nat
  b : Nat
  c : Nat
  d : Nat
  e : Nat
  f : Nat
  g : Nat
  h : Nat
  deriving DecidableEq, Repr

/-- SHA-512 initial hash value. -/
def sha512init : Sha512State :=
  ⟨w64 0x6a09e667 0xf3bcc908, w64 0xbb67ae85 0x84caa73b,
   w64 0x3c6ef372 0xfe94f82b, w64 0xa54ff53a 0x5f1d36f1,
   w64 0x510e527f 0xade682d1, w64 0x9b05688c 0x2b3e6c1f,
   w64 0x1f83d9ab 0xfb41bd6b, w64 0x5be0cd19 0x137e2179⟩

/-- One SHA-512 round with round constant `k` and schedule word `w`. -/
def shaRound (st : Sha512State) (k w : Nat) : Sha512State :=
  let t1 := (st.h + bigSigma1 st.e + shaCh st.e st.f st.g + k + w) % M64
  let t2 := (bigSigma0 st.a + shaMaj st.a st.b st.c) % M64
  ⟨(t1 + t2) % M64, st.a, st.b, st.c, (st.d + t1) % M64, st.e, st.f, st.g⟩

/-- Big-endian value of a byte list. -/
def beWord (bs : List Nat) : Nat := bs.foldl (fun acc b => acc * 256 + b % 256) 0

/-- `n`-byte big-endian encoding of `v` (most significant byte first). -/
def beBytes : Nat → Nat → List Nat
  | 0, _ => []
  | n + 1, v => beBytes n (v / 256) ++ [v % 256]

/-- The sixteen 64-bit words of one 128-byte block. -/
def blockWords (block : List Nat) : List Nat :=
  (List.range 16).map (fun i => beWord ((block.drop (8 * i)).take 8))

/-- Extend the 16 block words to the 80-word message schedule. -/
def extendSchedule (ws : List Nat) : List Nat :=
  (List.range 64).foldl
    (fun acc _ =>
      let n := acc.length
      acc ++ [(smallSigma1 (acc.getD (n - 2) 0) + acc.getD (n - 7) 0 +
               smallSigma0 (acc.getD (n - 15) 0) + acc.getD (n - 16) 0) % M64])
    ws

/-- SHA-512 compression of one 128-byte block. -/
def processBlock (st : Sha512State) (block : List Nat) : Sha512State :=
  let fin := (shaK.zip (extendSchedule (blockWords block))).foldl
    (fun s kw => shaRound s kw.1 kw.2) st
  ⟨(st.a + fin.a) % M64, (st.b + fin.b) % M64, (st.c + fin.c) % M64,
   (st.d + fin.d) % M64, (st.e + fin.e) % M64, (st.f + fin.f) % M64,
   (st.g + fin.g) % M64, (st.h + fin.h) % M64⟩

/-- SHA-512 padding for a message of `len` bytes: `0x80`, zeros, then the
message length in bits as a 16-byte big-endian value. -/
def shaPadding (len : Nat) : List Nat :=
  128 :: (List.replicate ((128 - ((len + 17) % 128)) % 128) 0 ++ beBytes 16 (8 * len))

/-- Split a list into `n` chunks of 128 bytes. -/
def toBlocksN : Nat → List Nat → List (List Nat)
  | 0, _ => []
  | n + 1, l => l.take 128 :: toBlocksN n (l.drop 128)

/-- Serialize the final state as 64 bytes, big-endian per word. -/
def stateBytes (st : Sha512State) : List Nat :=
  beBytes 8 st.a ++ beBytes 8 st.b ++ beBytes 8 st.c ++ beBytes 8 st.d ++
  beBytes 8 st.e ++ beBytes 8 st.f ++ beBytes 8 st.g ++ beBytes 8 st.h

/-- SHA-512 digest (64 bytes) of a byte list: the reference digest function. -/
def sha512 (msg : List Nat) : List Nat :=
  let padded := msg ++ shaPadding msg.length
  stateBytes ((toBlocksN (padded.length / 128) padded).foldl processBlock sha512init)

/-! ## Lowercase hex encoding (`encoding/hex.EncodeToString`) -/

/-- Lowercase hexadecimal digit for `n < 16`. -/
def hexDigit (n : Nat) : Char := if n < 10 then Char.ofNat (48 + n) else Char.ofNat (87 + n)

/-- Two lowercase hex characters of one byte. -/
def hexByte (b : Nat) : List Char := [hexDigit (b / 16), hexDigit (b % 16)]

/-- `hex.EncodeToString`: lowercase hex string of a byte list. -/
def hexEncodeToString (bs : List Nat) : String := String.mk ((bs.map hexByte).flatten)

/-! ## Checksum stream (`pushpackage/checksum.go`, `copyAndChecksum`)

`copyAndChecksum(w, r)` builds `h := sha512.New()`, an
`io.MultiWriter(w, h)`, runs `io.Copy` from `r` into it, and on success
returns `hex.EncodeToString(h.Sum(nil))`; on any copy error it returns
`("", err)`.

The source reader is modelled as the list of chunks its successive reads
deliver, followed either by end-of-stream or by a read error
(`failAtEnd`).  The destination writer is modelled by an optional byte
capacity: a chunk write fails once it would push the total beyond the
capacity (`none` = writes always succeed).  The Go stdlib hash state is
modelled by the list of bytes written to it, with `Sum` returning the
SHA-512 digest of those bytes; `io.MultiWriter` writes each chunk to the
destination first and forwards it to the hash only when that write
succeeded, and `io.Copy` stops at the first failed write or read. -/

/-- I/O errors a copy can surface: a read error from the source or a
write error from the destination. -/
inductive IOErr where
  | readErr : IOErr
  | writeErr : IOErr
  deriving DecidableEq, Repr

/-- A source reader: the chunks its successive reads deliver, and whether
the stream ends in a read error instead of EOF. -/
structure Source where
  chunks : List (List Nat)
  failAtEnd : Bool
  deriving DecidableEq, Repr

/-- Does a destination of capacity `cap` accept a total of `n` bytes? -/
def capOk : Option Nat → Nat → Bool
  | none, _ => true
  | some c, n => n ≤ c

/-- The `io.Copy` loop over an `io.MultiWriter(w, h)`: returns the bytes
received by the destination, the bytes fed to the hash, and the copy
error, if any. -/
def copyLoop (cap : Option Nat) : List (List Nat) → List Nat → List Nat →
    List Nat × List Nat × Option IOErr
  | [], w, hb => (w, hb, none)
  | chunk :: rest, w, hb =>
    if capOk cap (w.length + chunk.length) then
      copyLoop cap rest (w ++ chunk) (hb ++ chunk)
    else
      (w, hb, some .writeErr)

/-- Result of `copyAndChecksum`: the destination contents, the returned
digest string, and the returned error. -/
structure CopyResult where
  dest : List Nat
  digest : String
  error : Option IOErr
  deriving DecidableEq, Repr

/-- `copyAndChecksum` (checksum.go:10-17): copies the source to the
destination while hashing, returning `("", err)` on a copy error and the
lowercase hex SHA-512 digest on success. -/
def copyAndChecksum (cap : Option Nat) (src : Source) : CopyResult :=
  match copyLoop cap src.chunks [] [] with
  | (w, _, some err) => ⟨w, "", some err⟩
  | (w, hb, none) =>
    if src.failAtEnd then ⟨w, "", some .readErr⟩
    else ⟨w, hexEncodeToString (sha512 hb), none⟩

/-! ## Helper lemmas -/

theorem capOk_mono (cap : Option Nat) {m n : Nat} (h : capOk cap n = true) (hmn : m ≤ n) :
    capOk cap m = true := by
  cases cap with
  | none => rfl
  | some c => simp only [capOk, decide_eq_true_eq] at h ⊢; omega

theorem copyLoop_ok (cap : Option Nat) :
    ∀ (chunks : List (List Nat)) (w hb w' hb' : List Nat),
      copyLoop cap chunks w hb = (w', hb', none) →
      w' = w ++ chunks.flatten ∧ hb' = hb ++ chunks.flatten := by
  intro chunks
  induction chunks with
  | nil =>
    intro w hb w' hb' h
    simp only [copyLoop, Prod.mk.injEq] at h
    simp [← h.1, ← h.2.1]
  | cons chunk rest ih =>
    intro w hb w' hb' h
    simp only [copyLoop] at h
    split at h
    · have h2 := ih _ _ _ _ h
      simp [h2.1, h2.2, List.flatten_cons, List.append_assoc]
    · simp at h

theorem copyLoop_of_fits (cap : Option Nat) :
    ∀ (chunks : List (List Nat)) (w hb : List Nat),
      capOk cap (w.length + chunks.flatten.length) = true →
      copyLoop cap chunks w hb = (w ++ chunks.flatten, hb ++ chunks.flatten, none) := by
  intro chunks
  induction chunks with
  | nil => intro w hb _; simp [copyLoop]
  | cons chunk rest ih =>
    intro w hb hcap
    simp only [List.flatten_cons, List.length_append] at hcap
    have h1 : capOk cap (w.length + chunk.length) = true :=
      capOk_mono cap hcap (by omega)
    simp only [copyLoop, h1, if_true]
    have h2 := ih (w ++ chunk) (hb ++ chunk)
      (by simpa [List.length_append, Nat.add_assoc] using hcap)
    simp [h2, List.flatten_cons, List.append_assoc]

theorem copyLoop_write_fail (c : Nat) :
    ∀ (chunks : List (List Nat)) (w hb : List Nat),
      w.length ≤ c → c < w.length + chunks.flatten.length →
      (copyLoop (some c) chunks w hb).2.2 = some IOErr.writeErr := by
  intro chunks
  induction chunks with
  | nil => intro w hb hle hlt; simp at hlt; omega
  | cons chunk rest ih =>
    intro w hb hle hlt
    simp only [List.flatten_cons, List.length_append] at hlt
    by_cases hcap : capOk (some c) (w.length + chunk.length) = true
    · simp only [copyLoop, hcap, if_true]
      simp only [capOk, decide_eq_true_eq] at hcap
      exact ih (w ++ chunk) (hb ++ chunk)
        (by simp only [List.length_append]; omega)
        (by simp only [List.length_append]; omega)
    · simp [copyLoop, hcap]

theorem beBytes_length (n : Nat) : ∀ v, (beBytes n v).length = n := by
  induction n with
  | zero => intro v; rfl
  | succ n ih => intro v; simp [beBytes, ih]

theorem beBytes_lt (n : Nat) : ∀ v, ∀ b ∈ beBytes n v, b < 256 := by
  induction n with
  | zero => intro v b hb; simp [beBytes] at hb
  | succ n ih =>
    intro v b hb
    simp only [beBytes, List.mem_append, List.mem_singleton] at hb
    rcases hb with h | h
    · exact ih _ _ h
    · subst h; exact Nat.mod_lt _ (by omega)

theorem sha512_length (msg : List Nat) : (sha512 msg).length = 64 := by
  simp [sha512, stateBytes, beBytes_length]

theorem stateBytes_lt (st : Sha512State) : ∀ b ∈ stateBytes st, b < 256 := by
  unfold stateBytes
  simp only [List.forall_mem_append]
  exact ⟨⟨⟨⟨⟨⟨⟨beBytes_lt _ _, beBytes_lt _ _⟩, beBytes_lt _ _⟩, beBytes_lt _ _⟩,
    beBytes_lt _ _⟩, beBytes_lt _ _⟩, beBytes_lt _ _⟩, beBytes_lt _ _⟩

theorem sha512_bytes_lt (msg : List Nat) : ∀ b ∈ sha512 msg, b < 256 :=
  fun b hb => stateBytes_lt _ b hb

/-- Is a character a lowercase hexadecimal digit? -/
def isLowerHex (c : Char) : Bool :=
  (48 ≤ c.toNat && c.toNat ≤ 57) || (97 ≤ c.toNat && c.toNat ≤ 102)

theorem hexDigit_lowerHex : ∀ n < 16, isLowerHex (hexDigit n) = true := by decide

theorem hexEncode_length (bs : List Nat) : (hexEncodeToString bs).length = 2 * bs.length := by
  show (bs.map hexByte).flatten.length = 2 * bs.length
  induction bs with
  | nil => rfl
  | cons b bs ih =>
    simp only [List.map_cons, List.flatten_cons, List.length_append, ih, hexByte,
      List.length_cons, List.length_nil]
    omega

theorem hexEncode_lowerHex (bs : List Nat) (hbs : ∀ b ∈ bs, b < 256) :
    ∀ c ∈ (hexEncodeToString bs).data, isLowerHex c = true := by
  intro c hc
  have hc' : c ∈ (bs.map hexByte).flatten := hc
  rw [List.mem_flatten] at hc'
  obtain ⟨l, hl, hcl⟩ := hc'
  rw [List.mem_map] at hl
  obtain ⟨b, hb, rfl⟩ := hl
  have hb256 := hbs b hb
  simp only [hexByte, List.mem_cons, List.mem_singleton, List.not_mem_nil, or_false] at hcl
  rcases hcl with rfl | rfl
  · exact hexDigit_lowerHex _ (Nat.div_lt_of_lt_mul (by omega))
  · exact hexDigit_lowerHex _ (Nat.mod_lt _ (by omega))

/-! ## Claim theorems for the checksum stream -/

/-- C1: whenever `copyAndChecksum` succeeds, the digest it returns is the
reference SHA-512 digest of the full byte sequence read from the source,
encoded as a lowercase hex string of exactly 128 characters. -/
theorem copyAndChecksum_digest_is_reference_sha512 :
    ∀ (cap : Option Nat) (src : Source),
      (copyAndChecksum cap src).error = none →
      (copyAndChecksum cap src).digest = hexEncodeToString (sha512 src.chunks.flatten) ∧
      (copyAndChecksum cap src).digest.length = 128 ∧
      ∀ c ∈ (copyAndChecksum cap src).digest.data, isLowerHex c = true := by
  intro cap src herr
  rcases hcl : copyLoop cap src.chunks [] [] with ⟨w, hb, e⟩
  cases e with
  | some err => simp [copyAndChecksum, hcl] at herr
  | none =>
    by_cases hf : src.failAtEnd
    · simp [copyAndChecksum, hcl, hf] at herr
    · have hflat := copyLoop_ok cap src.chunks [] [] w hb hcl
      simp only [List.nil_append] at hflat
      have hres : copyAndChecksum cap src =
          ⟨w, hexEncodeToString (sha512 src.chunks.flatten), none⟩ := by
        simp [copyAndChecksum, hcl, hf, hflat.2]
      rw [hres]
      refine ⟨rfl, ?_, ?_⟩
      · show (hexEncodeToString (sha512 src.chunks.flatten)).length = 128
        rw [hexEncode_length, sha512_length]
      · show ∀ c ∈ (hexEncodeToString (sha512 src.chunks.flatten)).data, isLowerHex c = true
        exact hexEncode_lowerHex _ (sha512_bytes_lt _)

theorem copyAndChecksum_digest_is_reference_sha512_witness :
    (copyAndChecksum none ⟨[[104, 105]], false⟩).error = none ∧
    ((copyAndChecksum none ⟨[[104, 105]], false⟩).digest =
        hexEncodeToString (sha512 [104, 105]) ∧
      (copyAndChecksum none ⟨[[104, 105]], false⟩).digest.length = 128 ∧
      ∀ c ∈ (copyAndChecksum none ⟨[[104, 105]], false⟩).digest.data,
        isLowerHex c = true) :=
  ⟨by decide, copyAndChecksum_digest_is_reference_sha512 none ⟨[[104, 105]], false⟩ (by decide)⟩

/-- C2: whenever `copyAndChecksum` succeeds, the destination received
exactly the bytes read from the source, in order. -/
theorem copyAndChecksum_dest_exact :
    ∀ (cap : Option Nat) (src : Source),
      (copyAndChecksum cap src).error = none →
      (copyAndChecksum cap src).dest = src.chunks.flatten := by
  intro cap src herr
  rcases hcl : copyLoop cap src.chunks [] [] with ⟨w, hb, e⟩
  cases e with
  | some err => simp [copyAndChecksum, hcl] at herr
  | none =>
    by_cases hf : src.failAtEnd
    · simp [copyAndChecksum, hcl, hf] at herr
    · have hflat := copyLoop_ok cap src.chunks [] [] w hb hcl
      simp only [List.nil_append] at hflat
      simp [copyAndChecksum, hcl, hf, hflat.1]

theorem copyAndChecksum_dest_exact_witness :
    (copyAndChecksum none ⟨[[1, 2], [3]], false⟩).error = none ∧
    (copyAndChecksum none ⟨[[1, 2], [3]], false⟩).dest =
      ([[1, 2], [3]] : List (List Nat)).flatten :=
  ⟨by decide, copyAndChecksum_dest_exact none ⟨[[1, 2], [3]], false⟩ (by decide)⟩

/-- C3: a write failure (destination capacity exceeded before all source
bytes are written, including after a partial read) or a read failure makes
`copyAndChecksum` return that error, with no successful digest. -/
theorem copyAndChecksum_error_propagation :
    ∀ (cap : Option Nat) (src : Source),
      (∀ c, cap = some c → c < src.chunks.flatten.length →
        (copyAndChecksum cap src).error = some IOErr.writeErr ∧
        (copyAndChecksum cap src).digest = "") ∧
      (capOk cap src.chunks.flatten.length = true → src.failAtEnd = true →
        (copyAndChecksum cap src).error = some IOErr.readErr ∧
        (copyAndChecksum cap src).digest = "") := by
  intro cap src
  constructor
  · intro c hcap hlt
    subst hcap
    have hfail := copyLoop_write_fail c src.chunks [] [] (by simp) (by simpa using hlt)
    rcases hcl : copyLoop (some c) src.chunks [] [] with ⟨w, hb, e⟩
    rw [hcl] at hfail
    cases e with
    | none => simp at hfail
    | some err =>
      simp only at hfail
      cases hfail
      refine ⟨?_, ?_⟩ <;> simp [copyAndChecksum, hcl]
  · intro hcap hf
    have hcl := copyLoop_of_fits cap src.chunks [] [] (by simpa using hcap)
    exact ⟨by simp [copyAndChecksum, hcl, hf], by simp [copyAndChecksum, hcl, hf]⟩

theorem copyAndChecksum_error_propagation_witness :
    ((some 1 : Option Nat) = some 1 ∧
      1 < (Source.mk [[7, 8, 9]] false).chunks.flatten.length ∧
      (copyAndChecksum (some 1) ⟨[[7, 8, 9]], false⟩).error = some IOErr.writeErr ∧
      (copyAndChecksum (some 1) ⟨[[7, 8, 9]], false⟩).digest = "") ∧
    (capOk none (Source.mk [[7]] true).chunks.flatten.length = true ∧
      (Source.mk [[7]] true).failAtEnd = true ∧
      (copyAndChecksum none ⟨[[7]], true⟩).error = some IOErr.readErr ∧
      (copyAndChecksum none ⟨[[7]], true⟩).digest = "") :=
  ⟨⟨rfl, by decide,
    (copyAndChecksum_error_propagation (some 1) ⟨[[7, 8, 9]], false⟩).1 1 rfl (by decide)⟩,
   ⟨rfl, rfl,
    (copyAndChecksum_error_propagation none ⟨[[7]], true⟩).2 rfl rfl⟩⟩

set_option maxRecDepth 4000 in
/-- C4: on an empty source (no bytes readable, clean end of stream),
`copyAndChecksum` succeeds, the destination receives no bytes, and the
digest is the canonical SHA-512 digest of the empty byte sequence. -/
theorem copyAndChecksum_empty_input :
    ∀ src : Source, src.chunks.flatten = [] → src.failAtEnd = false →
      copyAndChecksum none src =
        ⟨[], "cf83e1357eefb8bdf1542850d66d8007d620e4050b5715dc83f4a921d36ce9ce47d0d13c5d85f2b0ff8318d2877eec2f63b931bd47417a81a538327af927da3e", none⟩ := by
  intro src hflat hf
  have hcl := copyLoop_of_fits none src.chunks [] [] rfl
  rw [hflat] at hcl
  simp only [copyAndChecksum, hcl, List.append_nil, List.nil_append, hf,
    Bool.false_eq_true, if_false]
  have : hexEncodeToString (sha512 []) =
      "cf83e1357eefb8bdf1542850d66d8007d620e4050b5715dc83f4a921d36ce9ce47d0d13c5d85f2b0ff8318d2877eec2f63b931bd47417a81a538327af927da3e" := by
    decide
  rw [this]

theorem copyAndChecksum_empty_input_witness :
    (Source.mk [] false).chunks.flatten = [] ∧
    (Source.mk [] false).failAtEnd = false ∧
    copyAndChecksum none ⟨[], false⟩ =
      ⟨[], "cf83e1357eefb8bdf1542850d66d8007d620e4050b5715dc83f4a921d36ce9ce47d0d13c5d85f2b0ff8318d2877eec2f63b931bd47417a81a538327af927da3e", none⟩ :=
  ⟨rfl, rfl, copyAndChecksum_empty_input ⟨[], false⟩ rfl rfl⟩

/-- C9: whenever `copyAndChecksum` returns an error, the digest string it
returns is empty. -/
theorem copyAndChecksum_no_digest_on_error :
    ∀ (cap : Option Nat) (src : Source) (e : IOErr),
      (copyAndChecksum cap src).error = some e →
      (copyAndChecksum cap src).digest = "" := by
  intro cap src e herr
  rcases hcl : copyLoop cap src.chunks [] [] with ⟨w, hb, e'⟩
  cases e' with
  | some err => simp [copyAndChecksum, hcl]
  | none =>
    by_cases hf : src.failAtEnd
    · simp [copyAndChecksum, hcl, hf]
    · simp [copyAndChecksum, hcl, hf] at herr

theorem copyAndChecksum_no_digest_on_error_witness :
    (copyAndChecksum (some 0) ⟨[[5]], false⟩).error = some IOErr.writeErr ∧
    (copyAndChecksum (some 0) ⟨[[5]], false⟩).digest = "" :=
  ⟨by decide, copyAndChecksum_no_digest_on_error (some 0) ⟨[[5]], false⟩ IOErr.writeErr (by decide)⟩

/-! ## Manifest builder, package signer, archive assembler

The repository excerpt contains only the checksum stream; the manifest,
signing and archive-assembly code the spec describes (sections 4.2-4.4) is
not under the sources, so it is modelled from the spec below. -/

/-- Build errors, from the spec's error taxonomy (section 7). -/
inductive BuildErr where
  | ReadFailure : BuildErr
  | WriteFailure : BuildErr
  | DuplicatePath : BuildErr
  | SigningFailure : BuildErr
  | ArchiveWriteFailure : BuildErr
  deriving DecidableEq, Repr

/-- Modelled from the spec: the Manifest Builder (section 4.2) is absent from
the source excerpt.  It walks the ordered (path, content) entries, invoking
the checksum stream `copyAndChecksum` once per file, producing the mapping
path → hex digest in insertion order, and fails with `DuplicatePath` when two
entries share the same relative path instead of silently overwriting. -/
def buildManifest (files : List (String × List Nat)) :
    Except BuildErr (List (String × String)) :=
  if (files.map Prod.fst).Nodup then
    .ok (files.map (fun f => (f.1, (copyAndChecksum none ⟨[f.2], false⟩).digest)))
  else .error .DuplicatePath

/-- Modelled from the spec: canonical JSON serialization of the manifest
(section 4.3), a JSON object mapping each path to its digest, in manifest
order — the same byte sequence every time for the same manifest value. -/
def serializeManifest (m : List (String × String)) : String :=
  "\x7b" ++ String.intercalate ","
    (m.map (fun e => "\"" ++ e.1 ++ "\":\"" ++ e.2 ++ "\"")) ++ "\x7d"

/-- Code points of a string as bytes (manifest text is ASCII). -/
def strBytes (s : String) : List Nat := s.data.map Char.toNat

/-- Modelled from the spec: a SigningIdentity (section 3) is an opaque
certificate + key handle; all that matters is its identity and whether the
private key is usable. -/
structure SigningIdentity where
  keyId : Nat
  usable : Bool
  deriving DecidableEq, Repr

/-- Modelled from the spec: the detached signature bytes over a message, a
deterministic function of the signing identity and of the exact message
bytes (section 4.3). -/
def sigBytes (ident : SigningIdentity) (msg : List Nat) : List Nat :=
  ident.keyId % 256 :: sha512 msg

/-- Modelled from the spec: the Package Signer (section 4.3) produces the
detached signature over the serialized manifest bytes, failing with
`SigningFailure` when the identity's private key is unusable. -/
def signManifestBytes (ident : SigningIdentity) (msg : List Nat) :
    Except BuildErr (List Nat) :=
  if ident.usable then .ok (sigBytes ident msg) else .error .SigningFailure

/-- Modelled from the spec: a consumer re-verifies the detached signature
against the exact manifest bytes embedded in the archive. -/
def verifySignature (ident : SigningIdentity) (msg sig : List Nat) : Bool :=
  sig == sigBytes ident msg

/-- Modelled from the spec: the Archive Assembler (section 4.4): each file is
streamed into the archive through the checksum stream, then `manifest.json`
(the serialized manifest) and `signature` (the detached signature over those
manifest bytes) are appended; any failure aborts with no archive. -/
def buildPackage (files : List (String × List Nat)) (ident : SigningIdentity) :
    Except BuildErr (List (String × List Nat)) :=
  match buildManifest files with
  | .error e => .error e
  | .ok m =>
    let manifestBytes := strBytes (serializeManifest m)
    match signManifestBytes ident manifestBytes with
    | .error e => .error e
    | .ok sig =>
      .ok (files.map (fun f => (f.1, (copyAndChecksum none ⟨[f.2], false⟩).dest)) ++
        [("manifest.json", manifestBytes), ("signature", sig)])

/-! ## Build state machine (spec section 4.4) -/

/-- Modelled from the spec: the per-build states of the Archive Assembler. -/
inductive BuildPhase where
  | Empty : BuildPhase
  | WritingFiles : BuildPhase
  | ManifestReady : BuildPhase
  | Signed : BuildPhase
  | Finalized : BuildPhase
  deriving DecidableEq, Repr, Fintype

/-- Modelled from the spec: the operations a build performs. -/
inductive BuildOp where
  | beginFiles : BuildOp
  | writeFile : BuildOp
  | computeManifest : BuildOp
  | signManifest : BuildOp
  | finalize : BuildOp
  deriving DecidableEq, Repr, Fintype

/-- Modelled from the spec: the allowed transitions of the build state
machine; `none` means the operation is an error in that state. -/
def phaseStep : BuildPhase → BuildOp → Option BuildPhase
  | .Empty, .beginFiles => some .WritingFiles
  | .WritingFiles, .writeFile => some .WritingFiles
  | .WritingFiles, .computeManifest => some .ManifestReady
  | .ManifestReady, .signManifest => some .Signed
  | .Signed, .finalize => some .Finalized
  | _, _ => none

/-- Position of a phase in the pipeline sequence. -/
def phaseRank : BuildPhase → Nat
  | .Empty => 0
  | .WritingFiles => 1
  | .ManifestReady => 2
  | .Signed => 3
  | .Finalized => 4

/-- The operation sequence of one build over `nFiles` files. -/
def buildOps (nFiles : Nat) : List BuildOp :=
  .beginFiles ::
    (List.replicate nFiles .writeFile ++ [.computeManifest, .signManifest, .finalize])

/-- Run a sequence of operations from a phase; `none` on the first illegal
operation. -/
def runOps : BuildPhase → List BuildOp → Option BuildPhase
  | s, [] => some s
  | s, op :: rest =>
    match phaseStep s op with
    | some s' => runOps s' rest
    | none => none

theorem runOps_writeFiles (rest : List BuildOp) (n : Nat) :
    runOps .WritingFiles (List.replicate n .writeFile ++ rest) =
      runOps .WritingFiles rest := by
  induction n with
  | zero => rfl
  | succ n ih => simpa [List.replicate_succ, runOps, phaseStep] using ih

/-! ## Claim theorems for the build pipeline -/

/-- C5: two file entries sharing a relative path make the build fail with
`DuplicatePath`, producing no archive: the duplicate is rejected, never
silently allowed to overwrite the first entry in the manifest. -/
theorem duplicate_path_rejected :
    ∀ (files : List (String × List Nat)) (ident : SigningIdentity),
      ¬ (files.map Prod.fst).Nodup →
      buildPackage files ident = .error .DuplicatePath := by
  intro files ident hdup
  simp [buildPackage, buildManifest, hdup]

theorem duplicate_path_rejected_witness :
    ¬ (([("a", [1]), ("a", [2])] : List (String × List Nat)).map Prod.fst).Nodup ∧
    buildPackage [("a", [1]), ("a", [2])] ⟨0, true⟩ = .error .DuplicatePath :=
  ⟨by decide, duplicate_path_rejected [("a", [1]), ("a", [2])] ⟨0, true⟩ (by decide)⟩

/-- C6: the path → digest mapping is independent of the order in which the
files are supplied: over permuted entry lists, successful builds yield
manifests that are permutations of each other (the same set of
(path, digest) pairs), and failing builds fail with the same error. -/
theorem manifest_order_independent :
    ∀ (l₁ l₂ : List (String × List Nat)), l₁.Perm l₂ →
      (∀ m₁ m₂, buildManifest l₁ = .ok m₁ → buildManifest l₂ = .ok m₂ → m₁.Perm m₂) ∧
      (∀ e, buildManifest l₁ = .error e ↔ buildManifest l₂ = .error e) := by
  intro l₁ l₂ hperm
  have hnd : (l₁.map Prod.fst).Nodup ↔ (l₂.map Prod.fst).Nodup :=
    (hperm.map Prod.fst).nodup_iff
  constructor
  · intro m₁ m₂ h1 h2
    by_cases h : (l₁.map Prod.fst).Nodup
    · simp only [buildManifest, if_pos h, Except.ok.injEq] at h1
      simp only [buildManifest, if_pos (hnd.mp h), Except.ok.injEq] at h2
      rw [← h1, ← h2]
      exact hperm.map _
    · simp [buildManifest, if_neg h] at h1
  · intro e
    by_cases h : (l₁.map Prod.fst).Nodup
    · simp [buildManifest, if_pos h, if_pos (hnd.mp h)]
    · simp [buildManifest, if_neg h, if_neg (fun h2 => h (hnd.mpr h2))]

theorem manifest_order_independent_witness :
    ([("a", [1]), ("b", [2])] : List (String × List Nat)).Perm [("b", [2]), ("a", [1])] ∧
    List.Perm
      [("a", (copyAndChecksum none ⟨[[1]], false⟩).digest),
       ("b", (copyAndChecksum none ⟨[[2]], false⟩).digest)]
      [("b", (copyAndChecksum none ⟨[[2]], false⟩).digest),
       ("a", (copyAndChecksum none ⟨[[1]], false⟩).digest)] :=
  ⟨by decide,
   (manifest_order_independent [("a", [1]), ("b", [2])] [("b", [2]), ("a", [1])]
      (by decide)).1 _ _ rfl rfl⟩

/-- C7: every build follows Empty → WritingFiles → ManifestReady → Signed →
Finalized: no legal transition advances the pipeline by more than one phase,
Signed is only ever entered from ManifestReady, Finalized is terminal (every
operation after finalization — in particular a write — is an error), and the
operation sequence of any build, whatever its file count, passes through the
pipeline to Finalized. -/
theorem build_state_machine :
    (∀ (s s' : BuildPhase) (op : BuildOp), phaseStep s op = some s' →
      phaseRank s' ≤ phaseRank s + 1) ∧
    (∀ (s : BuildPhase) (op : BuildOp), phaseStep s op = some .Signed →
      s = .ManifestReady) ∧
    (∀ op : BuildOp, phaseStep .Finalized op = none) ∧
    (∀ n : Nat, runOps .Empty (buildOps n) = some .Finalized) := by
  refine ⟨by decide, by decide, by decide, ?_⟩
  intro n
  show runOps .Empty (.beginFiles :: _) = some .Finalized
  simp only [runOps, phaseStep]
  rw [runOps_writeFiles]
  rfl

theorem build_state_machine_witness :
    phaseStep .Empty .beginFiles = some .WritingFiles ∧
    phaseRank .WritingFiles ≤ phaseRank .Empty + 1 ∧
    phaseStep .Finalized .writeFile = none ∧
    runOps .Empty (buildOps 2) = some .Finalized :=
  ⟨rfl, build_state_machine.1 .Empty .WritingFiles .beginFiles rfl,
   build_state_machine.2.2.1 .writeFile,
   build_state_machine.2.2.2 2⟩

/-- C8: an empty file set with a usable signing identity builds successfully
into an archive of exactly two entries — `manifest.json` holding the empty
JSON mapping and `signature` — and the signature verifies over exactly the
manifest bytes embedded in the archive. -/
theorem empty_fileset_package :
    ∀ ident : SigningIdentity, ident.usable = true →
      buildPackage [] ident =
        .ok [("manifest.json", strBytes "\x7b\x7d"),
             ("signature", sigBytes ident (strBytes "\x7b\x7d"))] ∧
      serializeManifest [] = "\x7b\x7d" ∧
      verifySignature ident (strBytes "\x7b\x7d")
        (sigBytes ident (strBytes "\x7b\x7d")) = true := by
  intro ident hu
  have hs : serializeManifest [] = "\x7b\x7d" := by decide
  refine ⟨?_, hs, ?_⟩
  · simp [buildPackage, buildManifest, signManifestBytes, hu, hs]
  · simp [verifySignature]

theorem empty_fileset_package_witness :
    (SigningIdentity.mk 7 true).usable = true ∧
    buildPackage [] ⟨7, true⟩ =
      .ok [("manifest.json", strBytes "\x7b\x7d"),
           ("signature", sigBytes ⟨7, true⟩ (strBytes "\x7b\x7d"))] ∧
    serializeManifest [] = "\x7b\x7d" ∧
    verifySignature ⟨7, true⟩ (strBytes "\x7b\x7d")
      (sigBytes ⟨7, true⟩ (strBytes "\x7b\x7d")) = true :=
  ⟨rfl, empty_fileset_package ⟨7, true⟩ rfl⟩

end Buford

/-! ## Payload (`payload` package)

Embedding of the `APS`, `Alert` and `Sound` data and of `APS.Map`
(part_000).  Go's `map[string]interface{}` is modelled as an association
list built in the source's insertion order; the heterogeneous values are a
small sum type.  `float32` fields are modelled as `Rat`; the badge package
(not in the excerpt) is modelled as `Option Nat`: `none` is
`badge.Preserve`, `some n` a set badge, and `Number()` returns the value
and whether it is set. -/

namespace Payload

/-- Alert dictionary (payload source), fields in source order. -/
structure Alert where
  Title : String
  TitleLocKey : String
  TitleLocArgs : List String
  Subtitle : String
  SubtitleLocKey : String
  SubtitleLocArgs : List String
  Body : String
  LocKey : String
  LocArgs : List String
  ActionLocKey : String
  LaunchImage : String
  SafariAction : String
  deriving DecidableEq, Repr

/-- Sound dictionary (payload source); `CriticalVolume` is `float32` in Go,
modelled as `Rat`. -/
structure Sound where
  SoundName : String
  IsCritical : Int
  CriticalVolume : Rat
  deriving DecidableEq, Repr

/-- APS payload (payload source); `Badge` is the modelled badge package
(`Option Nat`), `RelevanceScore` is `float32` in Go, modelled as `Rat`. -/
structure APS where
  Alert : Alert
  Badge : Option Nat
  Sound : Sound
  ThreadID : String
  Category : String
  ContentAvailable : Bool
  MutableContent : Bool
  TargetContentID : String
  SafariURLArgs : List String
  InterruptionLevel : String
  RelevanceScore : Rat
  deriving DecidableEq, Repr

/-- Values stored in the `aps` dictionary (the `interface{}` values the
source puts into the map). -/
inductive PayloadValue where
  | str : String → PayloadValue
  | int : Int → PayloadValue
  | num : Rat → PayloadValue
  | alertDict : Alert → PayloadValue
  | soundDict : Sound → PayloadValue
  | strList : List String → PayloadValue
  deriving DecidableEq, Repr

/-- `isSimple` (payload source): alert with only Body set among the fields
the method inspects: Title, Subtitle, LaunchImage, TitleLocKey,
TitleLocArgs, LocKey, LocArgs, ActionLocKey. -/
def Alert.isSimple (a : Alert) : Bool :=
  a.Title.length == 0 && a.Subtitle.length == 0 &&
  a.LaunchImage.length == 0 &&
  a.TitleLocKey.length == 0 && a.TitleLocArgs.length == 0 &&
  a.LocKey.length == 0 && a.LocArgs.length == 0 && a.ActionLocKey.length == 0

/-- `isZero` (payload source): no inspected Alert field set. -/
def Alert.isZero (a : Alert) : Bool :=
  a.Body.length == 0 && a.isSimple

/-- Entries of the inner `aps` dictionary other than `alert`, in the
source's insertion order. -/
def APS.restEntries (a : APS) : List (String × PayloadValue) :=
  (if a.Badge.isSome then [("badge", PayloadValue.int (a.Badge.getD 0))] else []) ++
  (if a.Sound.SoundName ≠ "" then [("sound", PayloadValue.soundDict a.Sound)] else []) ++
  (if a.ContentAvailable then [("content-available", PayloadValue.int 1)] else []) ++
  (if a.Category ≠ "" then [("category", PayloadValue.str a.Category)] else []) ++
  (if a.MutableContent then [("mutable-content", PayloadValue.int 1)] else []) ++
  (if a.ThreadID ≠ "" then [("thread-id", PayloadValue.str a.ThreadID)] else []) ++
  (if a.TargetContentID ≠ "" then [("target-content-id", PayloadValue.str a.TargetContentID)] else []) ++
  (if a.SafariURLArgs.length > 0 then [("url-args", PayloadValue.strList a.SafariURLArgs)] else []) ++
  (if a.InterruptionLevel ≠ "" then [("interruption-level", PayloadValue.str a.InterruptionLevel)] else []) ++
  (if a.RelevanceScore > 0 then [("relevance-score", PayloadValue.num a.RelevanceScore)] else [])

/-- The inner `aps` dictionary built by `Map` (payload source): the `alert`
entry first — the bare body if the alert is simple, the full dictionary
otherwise, omitted if the alert is zero — then the remaining entries. -/
def APS.apsEntries (a : APS) : List (String × PayloadValue) :=
  (if !a.Alert.isZero then
    [("alert",
      if a.Alert.isSimple then PayloadValue.str a.Alert.Body
      else PayloadValue.alertDict a.Alert)]
   else []) ++ a.restEntries

/-- `Map` (payload source): the whole payload wrapped under the single
top-level key `aps`. -/
def APS.Map (a : APS) : List (String × List (String × PayloadValue)) :=
  [("aps", a.apsEntries)]

/-! ## Lemmas about `APS.Map` -/

theorem string_length_eq_zero {s : String} : s.length = 0 ↔ s = "" := by
  constructor
  · intro h
    cases s with
    | mk data =>
      have hd : data = [] := List.length_eq_zero.mp h
      subst hd
      rfl
  · intro h
    subst h
    rfl

theorem mem_ite_singleton {α : Type} {p x : α} {c : Prop} [Decidable c]
    (h : p ∈ if c then [x] else ([] : List α)) : p = x := by
  split at h
  · simpa using h
  · simp at h

theorem lookup_eq_none_of_keys {β : Type} (k : String) :
    ∀ l : List (String × β), (∀ p ∈ l, p.1 ≠ k) → List.lookup k l = none := by
  intro l
  induction l with
  | nil => intro _; rfl
  | cons p rest ih =>
    intro h
    rcases p with ⟨k', v⟩
    have hne : (k == k') = false :=
      beq_eq_false_iff_ne.mpr (fun he => h (k', v) (List.mem_cons_self _ _) he.symm)
    simp only [List.lookup_cons, hne]
    exact ih (fun q hq => h q (List.mem_cons_of_mem _ hq))

theorem restEntries_no_alert (a : APS) : ∀ p ∈ a.restEntries, p.1 ≠ "alert" := by
  intro p hp
  simp only [APS.restEntries, List.mem_append] at hp
  rcases hp with ((((((((h | h) | h) | h) | h) | h) | h) | h) | h) | h <;>
    (rw [mem_ite_singleton h]; simp)

theorem isSimple_iff (al : Alert) :
    al.isSimple = true ↔
      (al.Title = "" ∧ al.Subtitle = "" ∧ al.LaunchImage = "" ∧ al.TitleLocKey = "" ∧
       al.TitleLocArgs = [] ∧ al.LocKey = "" ∧ al.LocArgs = [] ∧ al.ActionLocKey = "") := by
  simp [Alert.isSimple, Bool.and_eq_true, beq_iff_eq, string_length_eq_zero,
    List.length_eq_zero, and_assoc]

theorem isZero_iff (al : Alert) :
    al.isZero = true ↔ (al.Body = "" ∧ al.isSimple = true) := by
  simp [Alert.isZero, Bool.and_eq_true, beq_iff_eq, string_length_eq_zero]

theorem lookup_alert (a : APS) :
    List.lookup "alert" a.apsEntries =
      if a.Alert.isZero = true then none
      else if a.Alert.isSimple = true then some (PayloadValue.str a.Alert.Body)
      else some (PayloadValue.alertDict a.Alert) := by
  have hrest : List.lookup "alert" a.restEntries = none :=
    lookup_eq_none_of_keys _ _ (restEntries_no_alert a)
  by_cases hz : a.Alert.isZero = true
  · simp [APS.apsEntries, hz, hrest]
  · by_cases hs : a.Alert.isSimple = true
    · simp [APS.apsEntries, hz, hs, List.lookup_cons]
    · simp [APS.apsEntries, hz, hs, List.lookup_cons]

/-- C10: `APS.Map` always has the single top-level key `aps`; under it the
`alert` entry is the bare Body string when Body is non-empty and the other
Alert fields the method inspects (Title, Subtitle, LaunchImage, TitleLocKey,
TitleLocArgs, LocKey, LocArgs, ActionLocKey) are all empty, is the full
Alert dictionary when any of those fields is set, and is absent entirely
when every Alert field, Body included, is empty. -/
theorem aps_map_alert_cases :
    ∀ a : APS,
      (a.Map.map Prod.fst = ["aps"]) ∧
      (List.lookup "aps" a.Map = some a.apsEntries) ∧
      (a.Alert.Body ≠ "" → a.Alert.Title = "" → a.Alert.Subtitle = "" →
        a.Alert.LaunchImage = "" → a.Alert.TitleLocKey = "" →
        a.Alert.TitleLocArgs = [] → a.Alert.LocKey = "" → a.Alert.LocArgs = [] →
        a.Alert.ActionLocKey = "" →
        List.lookup "alert" a.apsEntries = some (PayloadValue.str a.Alert.Body)) ∧
      ((a.Alert.Title ≠ "" ∨ a.Alert.Subtitle ≠ "" ∨ a.Alert.LaunchImage ≠ "" ∨
        a.Alert.TitleLocKey ≠ "" ∨ a.Alert.TitleLocArgs ≠ [] ∨
        a.Alert.LocKey ≠ "" ∨ a.Alert.LocArgs ≠ [] ∨ a.Alert.ActionLocKey ≠ "") →
        List.lookup "alert" a.apsEntries = some (PayloadValue.alertDict a.Alert)) ∧
      (a.Alert.Title = "" → a.Alert.TitleLocKey = "" → a.Alert.TitleLocArgs = [] →
        a.Alert.Subtitle = "" → a.Alert.SubtitleLocKey = "" →
        a.Alert.SubtitleLocArgs = [] → a.Alert.Body = "" → a.Alert.LocKey = "" →
        a.Alert.LocArgs = [] → a.Alert.ActionLocKey = "" →
        a.Alert.LaunchImage = "" → a.Alert.SafariAction = "" →
        List.lookup "alert" a.apsEntries = none) := by
  intro a
  refine ⟨rfl, by simp [APS.Map, List.lookup_cons], ?_, ?_, ?_⟩
  · intro hB hT hS hL hTK hTA hK hA hAK
    have hsimple : a.Alert.isSimple = true :=
      (isSimple_iff a.Alert).mpr ⟨hT, hS, hL, hTK, hTA, hK, hA, hAK⟩
    have hzero : a.Alert.isZero = false :=
      Bool.eq_false_iff.mpr (fun h => hB ((isZero_iff a.Alert).mp h).1)
    rw [lookup_alert, hzero, hsimple]
    simp
  · intro hany
    have hsimple : a.Alert.isSimple = false := by
      apply Bool.eq_false_iff.mpr
      intro h
      obtain ⟨hT, hS, hL, hTK, hTA, hK, hA, hAK⟩ := (isSimple_iff a.Alert).mp h
      rcases hany with h' | h' | h' | h' | h' | h' | h' | h' <;> exact h' (by assumption)
    have hzero : a.Alert.isZero = false := by
      apply Bool.eq_false_iff.mpr
      intro h
      have hiz := ((isZero_iff a.Alert).mp h).2
      rw [hsimple] at hiz
      exact Bool.false_ne_true hiz
    rw [lookup_alert, hzero, hsimple]
    simp
  · intro hT hTK hTA hS hSK hSA hB hK hA hAK hL hSF
    have hsimple : a.Alert.isSimple = true :=
      (isSimple_iff a.Alert).mpr ⟨hT, hS, hL, hTK, hTA, hK, hA, hAK⟩
    have hzero : a.Alert.isZero = true := (isZero_iff a.Alert).mpr ⟨hB, hsimple⟩
    rw [lookup_alert, hzero]
    simp

theorem aps_map_alert_cases_witness :
    (APS.mk ⟨"", "", [], "", "", [], "hi", "", [], "", "", ""⟩ none ⟨"", 0, 0⟩
        "" "" false false "" [] "" 0).Alert.Body ≠ "" ∧
    List.lookup "alert"
      (APS.mk ⟨"", "", [], "", "", [], "hi", "", [], "", "", ""⟩ none ⟨"", 0, 0⟩
        "" "" false false "" [] "" 0).apsEntries =
      some (PayloadValue.str "hi") :=
  ⟨by decide,
   (aps_map_alert_cases
      (APS.mk ⟨"", "", [], "", "", [], "hi", "", [], "", "", ""⟩ none ⟨"", 0, 0⟩
        "" "" false false "" [] "" 0)).2.2.1
      (by decide) rfl rfl rfl rfl rfl rfl rfl rfl⟩

end Payload
